import Mathlib

/-!
Verification of the osc-mqtt-bridge relay engine.

This file gives a shallow embedding, in Lean, of the Go sources of the
osc-mqtt-bridge repository — the bundle codec (`OscDispatcher.makeBundle`,
`Relay.MakeOSCBundle`), the MQTT topic router (`Relay.MqttOnEvent`), the
inbound OSC dispatcher (`OscDispatcher.Dispatch`), the transport mode
selection (`Relay.OscSend` / `Relay.Start`), and the configuration validator
(`App.ReadConfig`) — and proves or refutes the specification's claims about
them.

Modelling conventions:
* Go strings are Lean `String`s; byte-level operations of the `strings`
  package are mirrored on `String.data` (the character list).
* `time.Time` is modelled as a seconds/nanoseconds pair.  go-osc's `Timetag`
  stores the `time.Time` it is constructed from and `Timetag.Time()` returns
  that stored value verbatim, so a wire bundle's timetag is modelled directly
  by its `time.Time` value.
* Dynamically typed argument values (Go `interface` values decoded from
  JSON) are modelled by the inductive `OscArg`; the bridge only ever copies
  them opaquely.
* Byte payloads from MQTT are modelled by `Payload`, which records exactly
  the distinctions the Go code makes: emptiness, and the outcome of
  `json.Unmarshal` into an argument list or into an `OscBundle`.
* Side effects (OSC sends, MQTT publishes, error logs) are modelled as an
  ordered event list produced by the handler under scrutiny.
-/

/-- A Go `time.Time` instant: whole seconds since the epoch plus a
nanosecond part (`0 ≤ nsec < 10^9` is maintained by Go; the bound is not
needed by any proof here). -/
structure GoTime where
  sec : Int
  nsec : Nat
deriving DecidableEq, Repr

/-- A dynamically typed scalar argument as carried by OSC messages and JSON
argument arrays (string / integer / boolean).  The bridge copies arguments
opaquely, so the exact constructor set is irrelevant to every claim. -/
inductive OscArg where
  | str (s : String)
  | int (n : Int)
  | boolean (b : Bool)
deriving DecidableEq, Repr

/-- go-osc `osc.Message`: an OSC address plus an ordered argument list. -/
structure OscMessageWire where
  address : String
  arguments : List OscArg
deriving DecidableEq, Repr

/-- go-osc `osc.Bundle`: a timetag plus ordered child messages and ordered
nested child bundles.  The timetag is modelled by the `time.Time` it stores
(`osc.NewBundle(t)` stores `t` and `Timetag.Time()` returns it verbatim). -/
inductive OscBundleWire where
  | mk (timetag : GoTime) (messages : List OscMessageWire) (bundles : List OscBundleWire)

/-- The repository's `OscMessage` struct (the JSON-portable mirror of an
`osc.Message`): address plus ordered arguments. -/
structure OscMessage where
  address : String
  arguments : List OscArg
deriving DecidableEq, Repr

/-- The repository's `OscBundle` struct (the JSON-portable mirror of an
`osc.Bundle`): timetag plus ordered messages and ordered nested bundles. -/
inductive OscBundle where
  | mk (timetag : GoTime) (messages : List OscMessage) (bundles : List OscBundle)

/-- `OscDispatcher.makeBundle`: converts a wire `osc.Bundle` into the
portable `OscBundle`, copying the timetag, copying each message's address
and arguments in order, and recursing into nested bundles in order. -/
def makeBundle : OscBundleWire → OscBundle
  | .mk t ms bs =>
    .mk t (ms.map fun m => { address := m.address, arguments := m.arguments })
      (bs.attach.map fun x => makeBundle x.1)
termination_by b => sizeOf b
decreasing_by simp_wf; have := List.sizeOf_lt_of_mem x.2; omega

/-- `Relay.MakeOSCBundle`: converts a portable `OscBundle` into a wire
`osc.Bundle` via `osc.NewBundle(bundle.Timetag)`, appending each message
(`osc.NewMessage(address)` with the arguments copied) in order and then each
recursively converted sub-bundle in order (`Bundle.Append` keeps messages
and bundles in separate ordered lists). -/
def MakeOSCBundle : OscBundle → OscBundleWire
  | .mk t ms bs =>
    .mk t (ms.map fun m => { address := m.address, arguments := m.arguments })
      (bs.attach.map fun x => MakeOSCBundle x.1)
termination_by b => sizeOf b
decreasing_by simp_wf; have := List.sizeOf_lt_of_mem x.2; omega

theorem makeBundle_mk (t : GoTime) (ms : List OscMessageWire) (bs : List OscBundleWire) :
    makeBundle (.mk t ms bs) =
      .mk t (ms.map fun m => { address := m.address, arguments := m.arguments })
        (bs.map makeBundle) := by
  simp only [makeBundle]
  rw [List.attach_map_coe]

theorem MakeOSCBundle_mk (t : GoTime) (ms : List OscMessage) (bs : List OscBundle) :
    MakeOSCBundle (.mk t ms bs) =
      .mk t (ms.map fun m => { address := m.address, arguments := m.arguments })
        (bs.map MakeOSCBundle) := by
  simp only [MakeOSCBundle]
  rw [List.attach_map_coe]

/-- Converting portable → wire → portable is the identity. -/
theorem makeBundle_MakeOSCBundle : ∀ (x : OscBundle), makeBundle (MakeOSCBundle x) = x
  | .mk t ms bs => by
    have ih : ∀ x ∈ bs, makeBundle (MakeOSCBundle x) = x :=
      fun x hx => makeBundle_MakeOSCBundle x
    rw [MakeOSCBundle_mk, makeBundle_mk, List.map_map, List.map_map]
    congr 1
    · exact (List.map_congr_left fun m _ => rfl).trans (List.map_id ms)
    · exact (List.map_congr_left ih).trans (List.map_id bs)
termination_by b => sizeOf b
decreasing_by simp_wf; have := List.sizeOf_lt_of_mem hx; omega

/-- Converting wire → portable → wire is the identity. -/
theorem MakeOSCBundle_makeBundle : ∀ (w : OscBundleWire), MakeOSCBundle (makeBundle w) = w
  | .mk t ms bs => by
    have ih : ∀ x ∈ bs, MakeOSCBundle (makeBundle x) = x :=
      fun x hx => MakeOSCBundle_makeBundle x
    rw [makeBundle_mk, MakeOSCBundle_mk, List.map_map, List.map_map]
    congr 1
    · exact (List.map_congr_left fun m _ => rfl).trans (List.map_id ms)
    · exact (List.map_congr_left ih).trans (List.map_id bs)
termination_by b => sizeOf b
decreasing_by simp_wf; have := List.sizeOf_lt_of_mem hx; omega

/-- C1: the bundle codec round-trips exactly in both directions for every
(finitely) nested bundle: `MakeOSCBundle` after `makeBundle` and
`makeBundle` after `MakeOSCBundle` both reproduce their input — same
timestamp, same message order, same per-message address and argument order,
same nested-bundle order.  (Both functions are pure in the model; the Go
originals allocate fresh structures and never write to their input.) -/
theorem C1_bundle_codec_roundtrip :
    (∀ w : OscBundleWire, MakeOSCBundle (makeBundle w) = w) ∧
    (∀ x : OscBundle, makeBundle (MakeOSCBundle x) = x) :=
  ⟨MakeOSCBundle_makeBundle, makeBundle_MakeOSCBundle⟩

/-- A predefined command mapping (`RelayCommand` in the source): target OSC
address, absolute subscribe topic and/or sub-topic under the relay
namespace, payload-forwarding switch, and default arguments. -/
structure RelayCommand where
  Command : String
  MqttTopic : String
  MqttSubTopic : String
  DisallowPayload : Bool
  DefaultPayload : List OscArg
deriving DecidableEq, Repr

/-- The configuration fields of a `Relay` that the verified code paths read.
The live client/server handles (`MqttClient`, `OscClient`, `OscServer`,
`OscServerConn`) and fields used only for connection setup or logging
(`MqttClientId`, `MqttUser`, `MqttPassword`, `MqttDisableConfigSend` aside,
`OscSubscriptions`, `LogLevel`) are modelled only where a claim needs them;
runtime socket state is modelled separately by `OscRuntime`. -/
structure Relay where
  MqttHost : String
  MqttPort : Int
  MqttTopic : String
  MqttDisableConfigSend : Bool
  OscHost : String
  OscPort : Int
  OscBindAddr : String
  OscBindPort : Int
  OscDisallowArbritaryCommand : Bool
  Commands : List RelayCommand
deriving DecidableEq, Repr

/-- An inbound MQTT byte payload, modelled by the distinctions the Go code
makes of it: `len(payload) == 0`; `json.Unmarshal` into an ordered argument
list succeeding with `args`; `json.Unmarshal` into an `OscBundle` succeeding
with `b`; or malformed bytes on which both unmarshals fail.  An empty
payload fails both unmarshals (Go: "unexpected end of JSON input"), and a
JSON array is not a JSON bundle object and vice versa. -/
inductive Payload where
  | empty
  | jsonArgs (args : List OscArg)
  | jsonBundle (b : OscBundle)
  | malformed

/-- `len(message.Payload()) == 0`. -/
def Payload.isEmpty : Payload → Bool
  | .empty => true
  | _ => false

/-- Outcome of `json.Unmarshal(payload, &arguments)` for an argument list. -/
def Payload.decodeArgs : Payload → Option (List OscArg)
  | .jsonArgs a => some a
  | _ => none

/-- Outcome of `json.Unmarshal(payload, bundle)` for an `OscBundle`. -/
def Payload.decodeBundle : Payload → Option OscBundle
  | .jsonBundle b => some b
  | _ => none

/-- One observable side effect of the MQTT event handler: an outbound OSC
message send, an outbound OSC bundle send, the status publish, or an
error-level log line. -/
inductive RelayEvent where
  | oscSend (address : String) (args : List OscArg)
  | oscSendBundle (b : OscBundleWire)
  | statusSent
  | errorLogged (msg : String)

/-- An outbound control packet (message or bundle send). -/
def evIsSend : RelayEvent → Bool
  | .oscSend _ _ => true
  | .oscSendBundle _ => true
  | _ => false

/-- The error text logged on a JSON decode failure ("Json Error: ..."). -/
def jsonErrMsg : String := "Json Error"

/-- The error text logged when the arbitrary-command gate blocks a send. -/
def arbErrMsg : String := "Arbritary commands are disabled on this relay."

/-- The mapping-match test from `MqttOnEvent`'s command loop:
`message.Topic() == cmd.MqttTopic || (cmd.MqttSubTopic != "" &&
message.Topic() == r.MqttTopic+"/"+cmd.MqttSubTopic)`. -/
def cmdMatches (r : Relay) (topic : String) (cmd : RelayCommand) : Prop :=
  topic = cmd.MqttTopic ∨
    (cmd.MqttSubTopic ≠ "" ∧ topic = r.MqttTopic ++ "/" ++ cmd.MqttSubTopic)

instance (r : Relay) (topic : String) (cmd : RelayCommand) :
    Decidable (cmdMatches r topic cmd) :=
  inferInstanceAs (Decidable (_ ∨ _))

/-- The command loop of `MqttOnEvent` (lines 287–312): for each mapping in
order, if it matches, build an OSC message at the mapping's address with
either the decoded payload (when forwarding is allowed and the payload is
non-empty) or the default payload, and send it.  A decode failure logs
"Json Error" and `return`s out of the whole handler — the second component
is `true` exactly when that early `return` was taken. -/
def commandEvents (r : Relay) (topic : String) (payload : Payload) :
    List RelayCommand → List RelayEvent × Bool
  | [] => ([], false)
  | cmd :: rest =>
    if cmdMatches r topic cmd then
      if cmd.DisallowPayload = false ∧ payload.isEmpty = false then
        match payload.decodeArgs with
        | none => ([RelayEvent.errorLogged jsonErrMsg], true)
        | some args =>
          let p := commandEvents r topic payload rest
          (RelayEvent.oscSend cmd.Command args :: p.1, p.2)
      else
        let args := if cmd.DefaultPayload ≠ [] then cmd.DefaultPayload else []
        let p := commandEvents r topic payload rest
        (RelayEvent.oscSend cmd.Command args :: p.1, p.2)
    else commandEvents r topic payload rest

/-- `r.MqttTopic + "/send"`, the generic-send topic root. -/
def sendRoot (r : Relay) : String := r.MqttTopic ++ "/send"

/-- `strings.HasPrefix(topic, r.MqttTopic+"/send")`, on the character
sequences of the strings. -/
def hasSendRoot (r : Relay) (topic : String) : Bool :=
  (sendRoot r).data.isPrefixOf topic.data

/-- `strings.Replace(topic, r.MqttTopic+"/send", "", 1)`: under the
`HasPrefix` guard the first occurrence of the pattern starts at index 0, so
the replacement removes exactly the leading pattern. -/
def stripSendRoot (r : Relay) (topic : String) : String :=
  String.mk (topic.data.drop (sendRoot r).data.length)

/-- Argument decoding of the generic-send branch (lines 329–336): an empty
payload yields no arguments, otherwise the payload must decode as a JSON
argument list. -/
def genericArgs (p : Payload) : Option (List OscArg) :=
  if p.isEmpty = true then some [] else p.decodeArgs

/-- The generic routing branches of `MqttOnEvent` (lines 314–373): the
`<namespace>/send` string-prefix branch, the `<namespace>/bundle/send`
branch, and the `<namespace>/status/check` branch, tried in this order as
in the source's if / else-if chain.  `SendStatus` publishes only when
`MqttDisableConfigSend` is unset. -/
def genericEvents (r : Relay) (topic : String) (payload : Payload) : List RelayEvent :=
  if hasSendRoot r topic = true then
    if r.OscDisallowArbritaryCommand = true then [RelayEvent.errorLogged arbErrMsg]
    else
      let cmd0 := stripSendRoot r topic
      let cmd := if cmd0 = "" then "/" else cmd0
      match genericArgs payload with
      | none => [RelayEvent.errorLogged jsonErrMsg]
      | some args => [RelayEvent.oscSend cmd args]
  else if topic = r.MqttTopic ++ "/bundle/send" then
    if r.OscDisallowArbritaryCommand = true then [RelayEvent.errorLogged arbErrMsg]
    else
      match payload.decodeBundle with
      | none => [RelayEvent.errorLogged jsonErrMsg]
      | some b => [RelayEvent.oscSendBundle (MakeOSCBundle b)]
  else if topic = r.MqttTopic ++ "/status/check" then
    if r.MqttDisableConfigSend = true then [] else [RelayEvent.statusSent]
  else []

/-- `Relay.MqttOnEvent`: the command loop runs first over all mappings in
order; if it hit an early `return` (JSON decode failure) nothing else runs,
otherwise the generic branches are evaluated on the same message. -/
def MqttOnEvent (r : Relay) (topic : String) (payload : Payload) : List RelayEvent :=
  if (commandEvents r topic payload r.Commands).2 = true then
    (commandEvents r topic payload r.Commands).1
  else (commandEvents r topic payload r.Commands).1 ++ genericEvents r topic payload

theorem isPrefixOf_append_same (a b c : List Char) :
    (a ++ b).isPrefixOf (a ++ c) = b.isPrefixOf c := by
  induction a with
  | nil => rfl
  | cons x xs ih =>
    show (x == x && (xs ++ b).isPrefixOf (xs ++ c)) = b.isPrefixOf c
    rw [beq_self_eq_true, Bool.true_and, ih]

theorem hasSendRoot_append (r : Relay) (rest : String) :
    hasSendRoot r (sendRoot r ++ rest) = true := by
  unfold hasSendRoot
  rw [String.data_append]
  simp [List.isPrefixOf_iff_prefix]

theorem stripSendRoot_append (r : Relay) (rest : String) :
    stripSendRoot r (sendRoot r ++ rest) = rest := by
  unfold stripSendRoot
  rw [String.data_append, List.drop_left]

/-- `<namespace>/bundle/send` never carries the `<namespace>/send` string
prefix, whatever the namespace: past the shared namespace root, `/send` is
not a prefix of `/bundle/send`. -/
theorem bundleSend_not_sendRoot (r : Relay) :
    hasSendRoot r (r.MqttTopic ++ "/bundle/send") = false := by
  unfold hasSendRoot sendRoot
  rw [String.data_append, String.data_append, isPrefixOf_append_same]
  decide

/-- A payload on which the router's argument decoding cannot fail: it is
either empty or decodes as a JSON argument list. -/
def decodableArgs (p : Payload) : Prop :=
  p.isEmpty = true ∨ ∃ a, p.decodeArgs = some a

theorem genericArgs_isSome (p : Payload) (hd : decodableArgs p) :
    ∃ a, genericArgs p = some a := by
  unfold genericArgs
  rcases hd with he | ⟨a, ha⟩
  · exact ⟨[], by rw [if_pos he]⟩
  · by_cases h : p.isEmpty = true
    · exact ⟨[], by rw [if_pos h]⟩
    · exact ⟨a, by rw [if_neg h]; exact ha⟩

theorem commandEvents_nomatch (r : Relay) (topic : String) (p : Payload)
    (l : List RelayCommand) (h : ∀ cmd ∈ l, ¬ cmdMatches r topic cmd) :
    commandEvents r topic p l = ([], false) := by
  induction l with
  | nil => rfl
  | cons cmd rest ih =>
    rw [commandEvents, if_neg (h cmd (List.mem_cons_self cmd rest))]
    exact ih fun c hc => h c (List.mem_cons_of_mem cmd hc)

/-- With a decodable payload the command loop never takes its early
`return`. -/
theorem commandEvents_no_abort (r : Relay) (topic : String) (p : Payload)
    (hd : decodableArgs p) (l : List RelayCommand) :
    (commandEvents r topic p l).2 = false := by
  induction l with
  | nil => rfl
  | cons cmd rest ih =>
    rw [commandEvents]
    by_cases hm : cmdMatches r topic cmd
    · rw [if_pos hm]
      by_cases hc : cmd.DisallowPayload = false ∧ p.isEmpty = false
      · rcases hd with he | ⟨a, ha⟩
        · rw [he] at hc
          exact absurd hc.2 (by simp)
        · rw [if_pos hc, ha]
          exact ih
      · rw [if_neg hc]
        exact ih
    · rw [if_neg hm]
      exact ih

/-- With a decodable payload, every matching mapping contributes an outbound
send to the command loop's event list. -/
theorem commandEvents_count_pos (r : Relay) (topic : String) (p : Payload)
    (hd : decodableArgs p) (cmd : RelayCommand) (hm : cmdMatches r topic cmd) :
    ∀ l : List RelayCommand, cmd ∈ l →
      1 ≤ (commandEvents r topic p l).1.countP evIsSend := by
  intro l hmem
  induction l with
  | nil => cases hmem
  | cons c rest ih =>
    rw [commandEvents]
    by_cases hmc : cmdMatches r topic c
    · rw [if_pos hmc]
      by_cases hc : c.DisallowPayload = false ∧ p.isEmpty = false
      · rcases hd with he | ⟨a, ha⟩
        · rw [he] at hc
          exact absurd hc.2 (by simp)
        · rw [if_pos hc, ha]
          simp [List.countP_cons, evIsSend]
      · rw [if_neg hc]
        simp [List.countP_cons, evIsSend]
    · rw [if_neg hmc]
      have : cmd ∈ rest := by
        rcases List.mem_cons.mp hmem with h | h
        · exact absurd (h ▸ hm) hmc
        · exact h
      exact ih this

/-- With the gate off and a decodable payload, a topic carrying the
`<namespace>/send` string prefix makes the generic-send branch emit exactly
one outbound message addressed at the stripped remainder. -/
theorem genericEvents_send (r : Relay) (rest : String) (p : Payload)
    (args : List OscArg) (hgate : r.OscDisallowArbritaryCommand = false)
    (hargs : genericArgs p = some args) :
    genericEvents r (sendRoot r ++ rest) p =
      [RelayEvent.oscSend (if rest = "" then "/" else rest) args] := by
  unfold genericEvents
  rw [hasSendRoot_append, if_pos rfl, hgate, stripSendRoot_append, hargs]
  simp

/-- With the gate on, both generic control branches log the
arbitrary-command error and emit nothing else. -/
theorem genericEvents_gated (r : Relay) (topic : String) (p : Payload)
    (hgate : r.OscDisallowArbritaryCommand = true)
    (ht : hasSendRoot r topic = true ∨ topic = r.MqttTopic ++ "/bundle/send") :
    genericEvents r topic p = [RelayEvent.errorLogged arbErrMsg] := by
  unfold genericEvents
  rcases ht with h | h
  · rw [h, if_pos rfl, hgate]
    simp
  · have hns : hasSendRoot r topic = false := by rw [h]; exact bundleSend_not_sendRoot r
    rw [hns, h, hgate]
    simp

/-- A topic carries the `<namespace>/send` string prefix exactly when it is
that string followed by some remainder. -/
theorem hasSendRoot_iff (r : Relay) (topic : String) :
    hasSendRoot r topic = true ↔ ∃ rest, topic = sendRoot r ++ rest := by
  constructor
  · intro h
    unfold hasSendRoot at h
    rw [List.isPrefixOf_iff_prefix] at h
    obtain ⟨t, ht⟩ := h
    refine ⟨String.mk t, String.ext ?_⟩
    rw [String.data_append]
    exact ht.symm
  · rintro ⟨rest, rfl⟩
    exact hasSendRoot_append r rest

/-- Mapping used by the C2 counterexample: an absolute subscribe topic that
lives under the relay's `<namespace>/send` tree. -/
def cmdC2 : RelayCommand :=
  { Command := "/c", MqttTopic := "a/send/x", MqttSubTopic := "",
    DisallowPayload := false, DefaultPayload := [] }

/-- Relay used by the C2 counterexample: namespace `a`, arbitrary commands
allowed, one mapping subscribed at `a/send/x`. -/
def relayC2 : Relay :=
  { MqttHost := "h", MqttPort := 1, MqttTopic := "a",
    MqttDisableConfigSend := false, OscHost := "o", OscPort := 9,
    OscBindAddr := "", OscBindPort := 0,
    OscDisallowArbritaryCommand := false, Commands := [cmdC2] }

/-- C2 counterexample: on relay `relayC2` the topic `a/send/x` both matches
the configured mapping and carries the `a/send` prefix, yet handling one
message on it emits two outbound control packets — one from the mapping and
a second from the generic-send branch — refuting the claim that at most one
results and that the generic-send branch does not additionally fire. -/
theorem C2_topic_router_precedence_cex :
    cmdC2 ∈ relayC2.Commands ∧
    cmdMatches relayC2 "a/send/x" cmdC2 ∧
    hasSendRoot relayC2 "a/send/x" = true ∧
    (MqttOnEvent relayC2 "a/send/x" Payload.empty).countP evIsSend = 2 := by
  refine ⟨by decide, by decide, by decide, by decide⟩

/-- C2 amended: the mapping loop and the generic-send branch are NOT
mutually exclusive.  For every message whose topic matches a configured
mapping and carries the `<namespace>/send` prefix, if arbitrary commands
are allowed and the payload decodes (or is empty), the mapping fires AND
the generic-send branch also fires: at least two outbound control packets
result. -/
theorem C2_topic_router_precedence_amended (r : Relay) (topic : String)
    (p : Payload) (cmd : RelayCommand) (hmem : cmd ∈ r.Commands)
    (hm : cmdMatches r topic cmd) (hpre : hasSendRoot r topic = true)
    (hgate : r.OscDisallowArbritaryCommand = false) (hd : decodableArgs p) :
    2 ≤ (MqttOnEvent r topic p).countP evIsSend := by
  have hb := commandEvents_no_abort r topic p hd r.Commands
  have hc := commandEvents_count_pos r topic p hd cmd hm r.Commands hmem
  obtain ⟨rest, rfl⟩ := (hasSendRoot_iff r topic).mp hpre
  obtain ⟨a, ha⟩ := genericArgs_isSome p hd
  rw [MqttOnEvent, hb]
  rw [if_neg (by simp)]
  rw [List.countP_append, genericEvents_send r rest p a hgate ha]
  have h1 : (List.countP evIsSend
      [RelayEvent.oscSend (if rest = "" then "/" else rest) a]) = 1 := by
    simp [List.countP_cons, evIsSend]
  rw [h1]
  omega

/-- C2 witness: the amended theorem applied to the concrete counterexample
relay and topic. -/
theorem C2_topic_router_precedence_witness :
    2 ≤ (MqttOnEvent relayC2 "a/send/x" Payload.empty).countP evIsSend :=
  C2_topic_router_precedence_amended relayC2 "a/send/x" Payload.empty cmdC2
    (by decide) (by decide) (by decide) rfl (Or.inl rfl)

/-- C9: the generic-send branch matches by raw string prefix with no
separator required: for every topic of the form `<namespace>/send` followed
by any remainder (including remainders not starting with `/`, as in
`<namespace>/sendX`), with arbitrary commands allowed and a decodable
payload, the branch emits one message whose target address is exactly the
remainder, with only the exactly-empty remainder mapped to the root
address `/`. -/
theorem C9_generic_send_raw_string_match (r : Relay) (rest : String)
    (p : Payload) (args : List OscArg)
    (hgate : r.OscDisallowArbritaryCommand = false)
    (hargs : genericArgs p = some args) :
    genericEvents r (sendRoot r ++ rest) p =
      [RelayEvent.oscSend (if rest = "" then "/" else rest) args] :=
  genericEvents_send r rest p args hgate hargs

/-- Relay used by the C9 witness: namespace `a`, no mappings, arbitrary
commands allowed. -/
def relayC9 : Relay :=
  { MqttHost := "h", MqttPort := 1, MqttTopic := "a",
    MqttDisableConfigSend := false, OscHost := "o", OscPort := 9,
    OscBindAddr := "", OscBindPort := 0,
    OscDisallowArbritaryCommand := false, Commands := [] }

/-- C9 witness: on namespace `a`, topic `a/sendX` (no slash after `send`)
fires the generic-send branch with target address `X`. -/
theorem C9_generic_send_raw_string_match_witness :
    genericEvents relayC9 (sendRoot relayC9 ++ "X") Payload.empty =
      [RelayEvent.oscSend "X" []] := by
  have h := C9_generic_send_raw_string_match relayC9 "X" Payload.empty []
    rfl rfl
  rw [if_neg (by decide)] at h
  exact h

/-- C4: a mapping with `disallow_payload` set that matches an inbound
message with a non-empty payload dispatches exactly the mapping's
configured default arguments; the incoming payload is never consulted (the
payload appears in the conclusion only through the recursive processing of
the remaining mappings). -/
theorem C4_default_payload_fallback (r : Relay) (topic : String) (p : Payload)
    (cmd : RelayCommand) (rest : List RelayCommand)
    (hm : cmdMatches r topic cmd) (hd : cmd.DisallowPayload = true)
    (_hne : p.isEmpty = false) :
    commandEvents r topic p (cmd :: rest) =
      (RelayEvent.oscSend cmd.Command cmd.DefaultPayload ::
          (commandEvents r topic p rest).1,
        (commandEvents r topic p rest).2) := by
  have hnc : ¬ (cmd.DisallowPayload = false ∧ p.isEmpty = false) := by
    rw [hd]
    simp
  have hdef : (if cmd.DefaultPayload ≠ [] then cmd.DefaultPayload else []) =
      cmd.DefaultPayload := by
    by_cases h : cmd.DefaultPayload = []
    · rw [if_neg (by simp [h]), h]
    · rw [if_pos h]
  rw [commandEvents, if_pos hm, if_neg hnc, hdef]

/-- Mapping used by the C4 witness: payload forwarding disallowed, default
arguments configured. -/
def cmdC4 : RelayCommand :=
  { Command := "/mute", MqttTopic := "t/in", MqttSubTopic := "",
    DisallowPayload := true, DefaultPayload := [OscArg.str "1"] }

/-- Relay used by the C4 witness. -/
def relayC4 : Relay :=
  { MqttHost := "h", MqttPort := 1, MqttTopic := "t",
    MqttDisableConfigSend := false, OscHost := "o", OscPort := 9,
    OscBindAddr := "", OscBindPort := 0,
    OscDisallowArbritaryCommand := false, Commands := [cmdC4] }

/-- C4 witness: a non-empty payload that would decode as `[int 7]` is
ignored; the dispatched message carries the configured default `["1"]`. -/
theorem C4_default_payload_fallback_witness :
    commandEvents relayC4 "t/in" (Payload.jsonArgs [OscArg.int 7]) [cmdC4] =
      ([RelayEvent.oscSend "/mute" [OscArg.str "1"]], false) :=
  C4_default_payload_fallback relayC4 "t/in" (Payload.jsonArgs [OscArg.int 7])
    cmdC4 [] (by decide) rfl rfl

/-- First mapping of the C3 counterexample: forwards payloads. -/
def cmdC3a : RelayCommand :=
  { Command := "/c1", MqttTopic := "t/in", MqttSubTopic := "",
    DisallowPayload := false, DefaultPayload := [] }

/-- Second mapping of the C3 counterexample: same topic, payload
forwarding disallowed, a default argument configured. -/
def cmdC3b : RelayCommand :=
  { Command := "/c2", MqttTopic := "t/in", MqttSubTopic := "",
    DisallowPayload := true, DefaultPayload := [OscArg.int 1] }

/-- Relay used by the C3 counterexample: two mappings on the same topic. -/
def relayC3 : Relay :=
  { MqttHost := "h", MqttPort := 1, MqttTopic := "t",
    MqttDisableConfigSend := false, OscHost := "o", OscPort := 9,
    OscBindAddr := "", OscBindPort := 0,
    OscDisallowArbritaryCommand := false, Commands := [cmdC3a, cmdC3b] }

/-- C3 counterexample: both mappings match topic `t/in`; the malformed
payload fails to decode for the first mapping.  The claim says the second
mapping (which ignores payloads and would dispatch its default `[1]`) must
still fire; in the code the decode failure `return`s out of the whole
handler, so the only event is the logged JSON error and no outbound packet
at all is produced. -/
theorem C3_decode_failure_isolation_cex :
    cmdMatches relayC3 "t/in" cmdC3b ∧ cmdC3b ∈ relayC3.Commands ∧
    MqttOnEvent relayC3 "t/in" Payload.malformed =
      [RelayEvent.errorLogged jsonErrMsg] ∧
    (MqttOnEvent relayC3 "t/in" Payload.malformed).countP evIsSend = 0 :=
  ⟨by decide, by decide, rfl, rfl⟩

/-- C3 amended: a JSON decode failure for one matching, payload-forwarding
mapping aborts the ENTIRE handler, not just that mapping's action: the
failing mapping's position yields only the logged error with the abort flag
set (all later mappings are skipped), and whenever the command loop aborts,
the generic send / bundle-send / status-check branches are not evaluated
either. -/
theorem C3_decode_failure_isolation_amended (r : Relay) (topic : String)
    (p : Payload) (cmd : RelayCommand) (rest : List RelayCommand)
    (hm : cmdMatches r topic cmd) (hdp : cmd.DisallowPayload = false)
    (hne : p.isEmpty = false) (hfail : p.decodeArgs = none) :
    commandEvents r topic p (cmd :: rest) =
      ([RelayEvent.errorLogged jsonErrMsg], true) ∧
    ∀ evs, commandEvents r topic p r.Commands = (evs, true) →
      MqttOnEvent r topic p = evs := by
  constructor
  · rw [commandEvents, if_pos hm, if_pos ⟨hdp, hne⟩, hfail]
  · intro evs h
    rw [MqttOnEvent, h]
    simp

/-- C3 witness: the amended theorem applied to the concrete counterexample
configuration. -/
theorem C3_decode_failure_isolation_witness :
    commandEvents relayC3 "t/in" Payload.malformed [cmdC3a, cmdC3b] =
      ([RelayEvent.errorLogged jsonErrMsg], true) ∧
    MqttOnEvent relayC3 "t/in" Payload.malformed =
      [RelayEvent.errorLogged jsonErrMsg] := by
  have h := C3_decode_failure_isolation_amended relayC3 "t/in"
    Payload.malformed cmdC3a [cmdC3b] (by decide) rfl rfl rfl
  exact ⟨h.1, h.2 _ h.1⟩

/-- Mapping used by the C5 counterexample: subscribed under the
`<namespace>/send` tree of its own relay. -/
def cmdC5 : RelayCommand :=
  { Command := "/c", MqttTopic := "a/send/x", MqttSubTopic := "",
    DisallowPayload := false, DefaultPayload := [] }

/-- Relay used by the C5 counterexample: arbitrary commands DISALLOWED, but
one mapping sits on a topic inside the `<namespace>/send` tree. -/
def relayC5 : Relay :=
  { MqttHost := "h", MqttPort := 1, MqttTopic := "a",
    MqttDisableConfigSend := false, OscHost := "o", OscPort := 9,
    OscBindAddr := "", OscBindPort := 0,
    OscDisallowArbritaryCommand := true, Commands := [cmdC5] }

/-- C5 counterexample: with the arbitrary-command gate on, a message on
`a/send/x` still produces an outbound control packet, because the mapping
loop runs before the gate and `a/send/x` matches the configured mapping.
The gate only suppresses the generic branch (which logs the error). -/
theorem C5_arbitrary_command_gate_cex :
    relayC5.OscDisallowArbritaryCommand = true ∧
    hasSendRoot relayC5 "a/send/x" = true ∧
    (MqttOnEvent relayC5 "a/send/x" Payload.empty).countP evIsSend = 1 ∧
    MqttOnEvent relayC5 "a/send/x" Payload.empty =
      [RelayEvent.oscSend "/c" [], RelayEvent.errorLogged arbErrMsg] :=
  ⟨rfl, by decide, by decide, rfl⟩

/-- C5 amended: with `osc_disallow_arbritary_command` set, an inbound
message on a topic with the `<namespace>/send` prefix or on
`<namespace>/bundle/send` that matches NO configured command mapping
produces no outbound control packet and exactly one logged error.  (If a
mapping does match such a topic, the mapping still fires — the gate only
governs the generic branches.) -/
theorem C5_arbitrary_command_gate_amended (r : Relay) (topic : String)
    (p : Payload) (hgate : r.OscDisallowArbritaryCommand = true)
    (ht : hasSendRoot r topic = true ∨ topic = r.MqttTopic ++ "/bundle/send")
    (hnm : ∀ cmd ∈ r.Commands, ¬ cmdMatches r topic cmd) :
    MqttOnEvent r topic p = [RelayEvent.errorLogged arbErrMsg] := by
  have hc := commandEvents_nomatch r topic p r.Commands hnm
  rw [MqttOnEvent, hc]
  rw [if_neg (by simp)]
  exact genericEvents_gated r topic p hgate ht

/-- Relay used by the C5 witness: gate on, no mappings. -/
def relayC5w : Relay :=
  { MqttHost := "h", MqttPort := 1, MqttTopic := "a",
    MqttDisableConfigSend := false, OscHost := "o", OscPort := 9,
    OscBindAddr := "", OscBindPort := 0,
    OscDisallowArbritaryCommand := true, Commands := [] }

/-- C5 witness: the amended theorem applied to both gated topics of a
concrete mapping-free relay. -/
theorem C5_arbitrary_command_gate_witness :
    MqttOnEvent relayC5w "a/send/x" Payload.empty =
      [RelayEvent.errorLogged arbErrMsg] ∧
    MqttOnEvent relayC5w "a/bundle/send" Payload.empty =
      [RelayEvent.errorLogged arbErrMsg] := by
  constructor
  · exact C5_arbitrary_command_gate_amended relayC5w "a/send/x" Payload.empty
      rfl (Or.inl (by decide)) (by simp [relayC5w])
  · exact C5_arbitrary_command_gate_amended relayC5w "a/bundle/send"
      Payload.empty rfl (Or.inr (by decide)) (by simp [relayC5w])

/-- The fatal validation errors of `App.ReadConfig`, each carrying the
offending relay index reported by the corresponding `log.Fatalf`. -/
inductive ConfigError where
  | noRelays
  | mqttHostPort (i : Nat)
  | mqttTopicMissing (i : Nat)
  | noEndpoint (i : Nat)
  | dupTopic (i : Nat)
  | dupBindPort (i : Nat)
deriving DecidableEq, Repr

/-- The defaulting pass of `ReadConfig`: if a bind address is set but the
bind port is zero, the bind port becomes the OSC peer port. -/
def applyBindPortDefault (r : Relay) : Relay :=
  if r.OscBindAddr ≠ "" ∧ r.OscBindPort = 0 then
    { r with OscBindPort := r.OscPort }
  else r

/-- The inner cross-relay loop of `ReadConfig` for relay `i` with topic
`topic` and bind port `port`: scan every other relay (`b != i`), failing on
a shared MQTT topic first, then on a shared OSC bind port. -/
def dupScan (topic : String) (port : Int) (i : Nat) :
    Nat → List Relay → Option ConfigError
  | _, [] => none
  | b, r2 :: rest =>
    if b ≠ i then
      if topic = r2.MqttTopic then some (ConfigError.dupTopic i)
      else if port = r2.OscBindPort then some (ConfigError.dupBindPort i)
      else dupScan topic port i (b + 1) rest
    else dupScan topic port i (b + 1) rest

/-- The per-relay checks of `ReadConfig`'s validation loop, in source
order; `rs` is the whole (already defaulted) relay list used by the
cross-relay scan. -/
def relayError (rs : List Relay) (i : Nat) (r : Relay) : Option ConfigError :=
  if r.MqttHost = "" ∨ r.MqttPort = 0 then some (ConfigError.mqttHostPort i)
  else if r.MqttTopic = "" then some (ConfigError.mqttTopicMissing i)
  else if r.OscBindAddr = "" ∧ r.OscHost = "" then some (ConfigError.noEndpoint i)
  else dupScan r.MqttTopic r.OscBindPort i 0 rs

/-- The outer validation loop: relays in order, first failure wins
(`log.Fatalf` terminates the process). -/
def scanRelays (rs : List Relay) : Nat → List Relay → Option ConfigError
  | _, [] => none
  | i, r :: rest =>
    match relayError rs i r with
    | some e => some e
    | none => scanRelays rs (i + 1) rest

/-- The validation portion of `App.ReadConfig`, applied to the parsed relay
list: empty-list check, bind-port defaulting, then the validation loop.
The result is either the first fatal error or the defaulted relay list the
process continues with. -/
def readConfigCheck (rs : List Relay) : Except ConfigError (List Relay) :=
  if rs.isEmpty = true then Except.error ConfigError.noRelays
  else
    match scanRelays (rs.map applyBindPortDefault) 0 (rs.map applyBindPortDefault) with
    | some e => Except.error e
    | none => Except.ok (rs.map applyBindPortDefault)

theorem applyBindPortDefault_MqttHost (r : Relay) :
    (applyBindPortDefault r).MqttHost = r.MqttHost := by
  unfold applyBindPortDefault
  split <;> rfl

theorem applyBindPortDefault_MqttPort (r : Relay) :
    (applyBindPortDefault r).MqttPort = r.MqttPort := by
  unfold applyBindPortDefault
  split <;> rfl

theorem applyBindPortDefault_MqttTopic (r : Relay) :
    (applyBindPortDefault r).MqttTopic = r.MqttTopic := by
  unfold applyBindPortDefault
  split <;> rfl

theorem applyBindPortDefault_OscBindAddr (r : Relay) :
    (applyBindPortDefault r).OscBindAddr = r.OscBindAddr := by
  unfold applyBindPortDefault
  split <;> rfl

theorem applyBindPortDefault_OscHost (r : Relay) :
    (applyBindPortDefault r).OscHost = r.OscHost := by
  unfold applyBindPortDefault
  split <;> rfl

theorem applyBindPortDefault_OscBindPort_of_noAddr (r : Relay)
    (h : r.OscBindAddr = "") :
    (applyBindPortDefault r).OscBindPort = r.OscBindPort := by
  unfold applyBindPortDefault
  rw [if_neg]
  intro hc
  exact hc.1 h

theorem dupScan_none (t : String) (p : Int) (i : Nat) :
    ∀ (l : List Relay) (b : Nat), dupScan t p i b l = none →
      ∀ j r2, l.get? j = some r2 → b + j ≠ i →
        t ≠ r2.MqttTopic ∧ p ≠ r2.OscBindPort := by
  intro l
  induction l with
  | nil =>
    intro b h j r2 hj hbj
    cases hj
  | cons r0 rest ih =>
    intro b h j r2 hj hbj
    rw [dupScan] at h
    by_cases hb : b ≠ i
    · rw [if_pos hb] at h
      by_cases ht : t = r0.MqttTopic
      · rw [if_pos ht] at h
        cases h
      · rw [if_neg ht] at h
        by_cases hp : p = r0.OscBindPort
        · rw [if_pos hp] at h
          cases h
        · rw [if_neg hp] at h
          cases j with
          | zero =>
            rw [List.get?_cons_zero] at hj
            cases hj
            exact ⟨ht, hp⟩
          | succ j2 =>
            rw [List.get?_cons_succ] at hj
            exact ih (b + 1) h j2 r2 hj (by omega)
    · rw [if_neg hb] at h
      cases j with
      | zero =>
        exact absurd (by omega : b + 0 = i) hbj
      | succ j2 =>
        rw [List.get?_cons_succ] at hj
        exact ih (b + 1) h j2 r2 hj (by omega)

theorem dupScan_none_of (t : String) (p : Int) (i : Nat) :
    ∀ (l : List Relay) (b : Nat),
      (∀ j r2, l.get? j = some r2 → b + j ≠ i →
        t ≠ r2.MqttTopic ∧ p ≠ r2.OscBindPort) →
      dupScan t p i b l = none := by
  intro l
  induction l with
  | nil =>
    intro b h
    rfl
  | cons r0 rest ih =>
    intro b h
    rw [dupScan]
    by_cases hb : b ≠ i
    · have h0 := h 0 r0 List.get?_cons_zero (by omega)
      rw [if_pos hb, if_neg h0.1, if_neg h0.2]
      exact ih (b + 1) fun j r2 hj hbj =>
        h (j + 1) r2 (by rw [List.get?_cons_succ]; exact hj) (by omega)
    · rw [if_neg hb]
      exact ih (b + 1) fun j r2 hj hbj =>
        h (j + 1) r2 (by rw [List.get?_cons_succ]; exact hj) (by omega)

theorem dupScan_some (t : String) (p : Int) (i : Nat) :
    ∀ (l : List Relay) (b : Nat) (e : ConfigError), dupScan t p i b l = some e →
      ∃ j r2, l.get? j = some r2 ∧ b + j ≠ i ∧
        ((t = r2.MqttTopic ∧ e = ConfigError.dupTopic i) ∨
          (p = r2.OscBindPort ∧ e = ConfigError.dupBindPort i)) := by
  intro l
  induction l with
  | nil =>
    intro b e h
    cases h
  | cons r0 rest ih =>
    intro b e h
    rw [dupScan] at h
    by_cases hb : b ≠ i
    · rw [if_pos hb] at h
      by_cases ht : t = r0.MqttTopic
      · rw [if_pos ht] at h
        cases h
        exact ⟨0, r0, List.get?_cons_zero, by omega, Or.inl ⟨ht, rfl⟩⟩
      · rw [if_neg ht] at h
        by_cases hp : p = r0.OscBindPort
        · rw [if_pos hp] at h
          cases h
          exact ⟨0, r0, List.get?_cons_zero, by omega, Or.inr ⟨hp, rfl⟩⟩
        · rw [if_neg hp] at h
          obtain ⟨j, r2, hj, hbj, hcase⟩ := ih (b + 1) e h
          exact ⟨j + 1, r2, by rw [List.get?_cons_succ]; exact hj, by omega, hcase⟩
    · rw [if_neg hb] at h
      obtain ⟨j, r2, hj, hbj, hcase⟩ := ih (b + 1) e h
      exact ⟨j + 1, r2, by rw [List.get?_cons_succ]; exact hj, by omega, hcase⟩

theorem relayError_none (rs : List Relay) (i : Nat) (r : Relay)
    (h : relayError rs i r = none) :
    ¬(r.MqttHost = "" ∨ r.MqttPort = 0) ∧ r.MqttTopic ≠ "" ∧
      ¬(r.OscBindAddr = "" ∧ r.OscHost = "") ∧
      dupScan r.MqttTopic r.OscBindPort i 0 rs = none := by
  unfold relayError at h
  by_cases h1 : r.MqttHost = "" ∨ r.MqttPort = 0
  · rw [if_pos h1] at h
    cases h
  · rw [if_neg h1] at h
    by_cases h2 : r.MqttTopic = ""
    · rw [if_pos h2] at h
      cases h
    · rw [if_neg h2] at h
      by_cases h3 : r.OscBindAddr = "" ∧ r.OscHost = ""
      · rw [if_pos h3] at h
        cases h
      · rw [if_neg h3] at h
        exact ⟨h1, h2, h3, h⟩

theorem relayError_none_of (rs : List Relay) (i : Nat) (r : Relay)
    (h1 : ¬(r.MqttHost = "" ∨ r.MqttPort = 0)) (h2 : r.MqttTopic ≠ "")
    (h3 : ¬(r.OscBindAddr = "" ∧ r.OscHost = ""))
    (h4 : dupScan r.MqttTopic r.OscBindPort i 0 rs = none) :
    relayError rs i r = none := by
  unfold relayError
  rw [if_neg h1, if_neg h2, if_neg h3]
  exact h4

theorem relayError_some (rs : List Relay) (i : Nat) (r : Relay) (e : ConfigError)
    (h : relayError rs i r = some e) :
    ((r.MqttHost = "" ∨ r.MqttPort = 0) ∧ e = ConfigError.mqttHostPort i) ∨
    (r.MqttTopic = "" ∧ e = ConfigError.mqttTopicMissing i) ∨
    (r.OscBindAddr = "" ∧ r.OscHost = "" ∧ e = ConfigError.noEndpoint i) ∨
    dupScan r.MqttTopic r.OscBindPort i 0 rs = some e := by
  unfold relayError at h
  by_cases h1 : r.MqttHost = "" ∨ r.MqttPort = 0
  · rw [if_pos h1] at h
    cases h
    exact Or.inl ⟨h1, rfl⟩
  · rw [if_neg h1] at h
    by_cases h2 : r.MqttTopic = ""
    · rw [if_pos h2] at h
      cases h
      exact Or.inr (Or.inl ⟨h2, rfl⟩)
    · rw [if_neg h2] at h
      by_cases h3 : r.OscBindAddr = "" ∧ r.OscHost = ""
      · rw [if_pos h3] at h
        cases h
        exact Or.inr (Or.inr (Or.inl ⟨h3.1, h3.2, rfl⟩))
      · rw [if_neg h3] at h
        exact Or.inr (Or.inr (Or.inr h))

theorem scanRelays_none (rs : List Relay) :
    ∀ (l : List Relay) (i : Nat), scanRelays rs i l = none →
      ∀ j r, l.get? j = some r → relayError rs (i + j) r = none := by
  intro l
  induction l with
  | nil =>
    intro i h j r hj
    cases hj
  | cons r0 rest ih =>
    intro i h j r hj
    rw [scanRelays] at h
    cases hre : relayError rs i r0 with
    | some e =>
      rw [hre] at h
      cases h
    | none =>
      rw [hre] at h
      cases j with
      | zero =>
        rw [List.get?_cons_zero] at hj
        cases hj
        simpa using hre
      | succ j2 =>
        rw [List.get?_cons_succ] at hj
        have h2 := ih (i + 1) h j2 r hj
        rwa [show i + 1 + j2 = i + (j2 + 1) by omega] at h2

theorem scanRelays_none_of (rs : List Relay) :
    ∀ (l : List Relay) (i : Nat),
      (∀ j r, l.get? j = some r → relayError rs (i + j) r = none) →
      scanRelays rs i l = none := by
  intro l
  induction l with
  | nil =>
    intro i h
    rfl
  | cons r0 rest ih =>
    intro i h
    rw [scanRelays]
    have h0 := h 0 r0 List.get?_cons_zero
    rw [Nat.add_zero] at h0
    rw [h0]
    exact ih (i + 1) fun j r hj => by
      have h2 := h (j + 1) r (by rw [List.get?_cons_succ]; exact hj)
      rwa [show i + (j + 1) = i + 1 + j by omega] at h2

theorem scanRelays_some (rs : List Relay) :
    ∀ (l : List Relay) (i : Nat) (e : ConfigError), scanRelays rs i l = some e →
      ∃ j r, l.get? j = some r ∧ relayError rs (i + j) r = some e := by
  intro l
  induction l with
  | nil =>
    intro i e h
    cases h
  | cons r0 rest ih =>
    intro i e h
    rw [scanRelays] at h
    cases hre : relayError rs i r0 with
    | some e2 =>
      rw [hre] at h
      cases h
      exact ⟨0, r0, List.get?_cons_zero, by simpa using hre⟩
    | none =>
      rw [hre] at h
      obtain ⟨j, r, hj, hrel⟩ := ih (i + 1) e h
      exact ⟨j + 1, r, by rw [List.get?_cons_succ]; exact hj,
        by rwa [show i + (j + 1) = i + 1 + j by omega]⟩

theorem readConfigCheck_ok (rs rs' : List Relay)
    (h : readConfigCheck rs = Except.ok rs') :
    rs' = rs.map applyBindPortDefault ∧
    ∀ j r, (rs.map applyBindPortDefault).get? j = some r →
      relayError (rs.map applyBindPortDefault) j r = none := by
  unfold readConfigCheck at h
  by_cases he : rs.isEmpty = true
  · rw [if_pos he] at h
    cases h
  · rw [if_neg he] at h
    cases hs : scanRelays (rs.map applyBindPortDefault) 0 (rs.map applyBindPortDefault) with
    | some e =>
      rw [hs] at h
      cases h
    | none =>
      rw [hs] at h
      cases h
      refine ⟨rfl, fun j r hj => ?_⟩
      have h2 := scanRelays_none _ _ 0 hs j r hj
      simpa using h2

theorem readConfigCheck_error (rs : List Relay) (e : ConfigError)
    (h : readConfigCheck rs = Except.error e) :
    (rs = [] ∧ e = ConfigError.noRelays) ∨
    ∃ j r, (rs.map applyBindPortDefault).get? j = some r ∧
      relayError (rs.map applyBindPortDefault) j r = some e := by
  unfold readConfigCheck at h
  by_cases he : rs.isEmpty = true
  · rw [if_pos he] at h
    cases h
    exact Or.inl ⟨List.isEmpty_iff.mp he, rfl⟩
  · rw [if_neg he] at h
    cases hs : scanRelays (rs.map applyBindPortDefault) 0 (rs.map applyBindPortDefault) with
    | some e2 =>
      rw [hs] at h
      cases h
      obtain ⟨j, r, hj, hrel⟩ := scanRelays_some _ _ 0 e hs
      exact Or.inr ⟨j, r, hj, by simpa using hrel⟩
    | none =>
      rw [hs] at h
      cases h

theorem get_map_default (rs : List Relay) (i : Nat) (r : Relay)
    (h : rs.get? i = some r) :
    (rs.map applyBindPortDefault).get? i = some (applyBindPortDefault r) := by
  rw [List.get?_map, h]
  rfl

theorem error_of_not_ok (rs : List Relay)
    (h : ∀ rs', readConfigCheck rs ≠ Except.ok rs') :
    ∃ e, readConfigCheck rs = Except.error e := by
  cases hc : readConfigCheck rs with
  | error e => exact ⟨e, rfl⟩
  | ok rs' => exact absurd hc (h rs')

theorem cfgErr_hostPort (rs : List Relay) (i : Nat) (r : Relay)
    (hget : rs.get? i = some r) (hv : r.MqttHost = "" ∨ r.MqttPort = 0) :
    ∃ e, readConfigCheck rs = Except.error e := by
  apply error_of_not_ok
  intro rs' hok
  have hall := (readConfigCheck_ok rs rs' hok).2
  have hnone := relayError_none _ _ _ (hall i _ (get_map_default rs i r hget))
  apply hnone.1
  rw [applyBindPortDefault_MqttHost, applyBindPortDefault_MqttPort]
  exact hv

theorem cfgErr_topicMissing (rs : List Relay) (i : Nat) (r : Relay)
    (hget : rs.get? i = some r) (hv : r.MqttTopic = "") :
    ∃ e, readConfigCheck rs = Except.error e := by
  apply error_of_not_ok
  intro rs' hok
  have hall := (readConfigCheck_ok rs rs' hok).2
  have hnone := relayError_none _ _ _ (hall i _ (get_map_default rs i r hget))
  apply hnone.2.1
  rw [applyBindPortDefault_MqttTopic]
  exact hv

theorem cfgErr_noEndpoint (rs : List Relay) (i : Nat) (r : Relay)
    (hget : rs.get? i = some r) (ha : r.OscBindAddr = "") (hh : r.OscHost = "") :
    ∃ e, readConfigCheck rs = Except.error e := by
  apply error_of_not_ok
  intro rs' hok
  have hall := (readConfigCheck_ok rs rs' hok).2
  have hnone := relayError_none _ _ _ (hall i _ (get_map_default rs i r hget))
  apply hnone.2.2.1
  rw [applyBindPortDefault_OscBindAddr, applyBindPortDefault_OscHost]
  exact ⟨ha, hh⟩

theorem cfgErr_dupTopic (rs : List Relay) (i j : Nat) (ri rj : Relay)
    (hij : i ≠ j) (hi : rs.get? i = some ri) (hj : rs.get? j = some rj)
    (hv : ri.MqttTopic = rj.MqttTopic) :
    ∃ e, readConfigCheck rs = Except.error e := by
  apply error_of_not_ok
  intro rs' hok
  have hall := (readConfigCheck_ok rs rs' hok).2
  have hnone := relayError_none _ _ _ (hall i _ (get_map_default rs i ri hi))
  have hd := dupScan_none _ _ _ _ _ hnone.2.2.2 j _ (get_map_default rs j rj hj)
    (by omega)
  apply hd.1
  rw [applyBindPortDefault_MqttTopic, applyBindPortDefault_MqttTopic]
  exact hv

theorem cfgErr_dupPort (rs : List Relay) (i j : Nat) (ri rj : Relay)
    (hij : i ≠ j) (hi : rs.get? i = some ri) (hj : rs.get? j = some rj)
    (hv : (applyBindPortDefault ri).OscBindPort =
      (applyBindPortDefault rj).OscBindPort) :
    ∃ e, readConfigCheck rs = Except.error e := by
  apply error_of_not_ok
  intro rs' hok
  have hall := (readConfigCheck_ok rs rs' hok).2
  have hnone := relayError_none _ _ _ (hall i _ (get_map_default rs i ri hi))
  have hd := dupScan_none _ _ _ _ _ hnone.2.2.2 j _ (get_map_default rs j rj hj)
    (by omega)
  exact hd.2 hv

/-- A configuration free of every violation `ReadConfig` rejects: nonempty,
per-relay broker host/port, namespace and endpoint present, and pairwise
distinct namespaces and (post-defaulting) bind ports. -/
def validConfig (rs : List Relay) : Prop :=
  rs ≠ [] ∧
  (∀ r ∈ rs, r.MqttHost ≠ "" ∧ r.MqttPort ≠ 0 ∧ r.MqttTopic ≠ "" ∧
    (r.OscBindAddr ≠ "" ∨ r.OscHost ≠ "")) ∧
  (∀ i j ri rj, i ≠ j → rs.get? i = some ri → rs.get? j = some rj →
    ri.MqttTopic ≠ rj.MqttTopic ∧
    (applyBindPortDefault ri).OscBindPort ≠ (applyBindPortDefault rj).OscBindPort)

theorem readConfigCheck_valid (rs : List Relay) (hv : validConfig rs) :
    readConfigCheck rs = Except.ok (rs.map applyBindPortDefault) := by
  obtain ⟨hne, hone, hpair⟩ := hv
  unfold readConfigCheck
  rw [if_neg (by rw [List.isEmpty_iff]; exact hne)]
  have hscan : scanRelays (rs.map applyBindPortDefault) 0
      (rs.map applyBindPortDefault) = none := by
    apply scanRelays_none_of
    intro j r hj
    rw [Nat.zero_add]
    rw [List.get?_map] at hj
    cases hg : rs.get? j with
    | none => rw [hg] at hj; cases hj
    | some r0 =>
      rw [hg] at hj
      cases hj
      have hmem := List.get?_mem hg
      obtain ⟨hh, hp, ht, hep⟩ := hone r0 hmem
      apply relayError_none_of
      · rw [applyBindPortDefault_MqttHost, applyBindPortDefault_MqttPort]
        intro hc
        cases hc with
        | inl h => exact hh h
        | inr h => exact hp h
      · rw [applyBindPortDefault_MqttTopic]
        exact ht
      · rw [applyBindPortDefault_OscBindAddr, applyBindPortDefault_OscHost]
        intro hc
        cases hep with
        | inl h => exact h hc.1
        | inr h => exact h hc.2
      · apply dupScan_none_of
        intro k r2 hk hkj
        rw [Nat.zero_add] at hkj
        rw [List.get?_map] at hk
        cases hg2 : rs.get? k with
        | none => rw [hg2] at hk; cases hk
        | some r2o =>
          rw [hg2] at hk
          cases hk
          have hdist := hpair j k r0 r2o (by omega) hg hg2
          constructor
          · rw [applyBindPortDefault_MqttTopic, applyBindPortDefault_MqttTopic]
            exact hdist.1
          · exact hdist.2
  rw [hscan]

/-- C6: `ReadConfig`'s validation rejects every listed violation — empty
relay list, empty broker host or zero broker port, empty topic namespace
root, neither bind address nor OSC peer host, two relays sharing a topic
namespace root, two relays sharing a (post-defaulting) bind port — and a
configuration free of all violations passes, returning the relay list with
bind ports defaulted from the peer port wherever a bind address was given
without a bind port.  Each error constructor of `ConfigError` carries the
offending relay index reported by `log.Fatalf`. -/
theorem C6_config_validation :
    (∀ rs : List Relay, rs = [] → ∃ e, readConfigCheck rs = Except.error e) ∧
    (∀ (rs : List Relay) (i : Nat) (r : Relay), rs.get? i = some r →
      (r.MqttHost = "" ∨ r.MqttPort = 0) →
      ∃ e, readConfigCheck rs = Except.error e) ∧
    (∀ (rs : List Relay) (i : Nat) (r : Relay), rs.get? i = some r →
      r.MqttTopic = "" → ∃ e, readConfigCheck rs = Except.error e) ∧
    (∀ (rs : List Relay) (i : Nat) (r : Relay), rs.get? i = some r →
      r.OscBindAddr = "" → r.OscHost = "" →
      ∃ e, readConfigCheck rs = Except.error e) ∧
    (∀ (rs : List Relay) (i j : Nat) (ri rj : Relay), i ≠ j →
      rs.get? i = some ri → rs.get? j = some rj →
      ri.MqttTopic = rj.MqttTopic →
      ∃ e, readConfigCheck rs = Except.error e) ∧
    (∀ (rs : List Relay) (i j : Nat) (ri rj : Relay), i ≠ j →
      rs.get? i = some ri → rs.get? j = some rj →
      (applyBindPortDefault ri).OscBindPort =
        (applyBindPortDefault rj).OscBindPort →
      ∃ e, readConfigCheck rs = Except.error e) ∧
    (∀ rs : List Relay, validConfig rs →
      readConfigCheck rs = Except.ok (rs.map applyBindPortDefault)) := by
  refine ⟨?_, cfgErr_hostPort, cfgErr_topicMissing, cfgErr_noEndpoint,
    cfgErr_dupTopic, cfgErr_dupPort, readConfigCheck_valid⟩
  intro rs h
  subst h
  exact ⟨ConfigError.noRelays, rfl⟩

/-- A violation-free relay for the C6 witness: bind address given, bind
port omitted (0), peer port 9. -/
def relayC6good : Relay :=
  { MqttHost := "h", MqttPort := 1883, MqttTopic := "osc/x",
    MqttDisableConfigSend := false, OscHost := "o", OscPort := 9,
    OscBindAddr := "10.0.0.1", OscBindPort := 0,
    OscDisallowArbritaryCommand := false, Commands := [] }

/-- C6 witness: the empty list is rejected, and the violation-free one-relay
configuration passes with its bind port derived from the peer port. -/
theorem C6_config_validation_witness :
    (∃ e, readConfigCheck [] = Except.error e) ∧
    readConfigCheck [relayC6good] =
      Except.ok ([relayC6good].map applyBindPortDefault) ∧
    [relayC6good].map applyBindPortDefault =
      [{ relayC6good with OscBindPort := 9 }] := by
  refine ⟨C6_config_validation.1 [] rfl, ?_, by decide⟩
  apply C6_config_validation.2.2.2.2.2.2
  refine ⟨by decide, by decide, ?_⟩
  intro i j ri rj hij hi hj
  cases i with
  | zero =>
    cases j with
    | zero => exact absurd rfl hij
    | succ j2 =>
      rw [List.get?_cons_succ] at hj
      cases hj
  | succ i2 =>
    rw [List.get?_cons_succ] at hi
    cases hi

/-- C10: two client-only relays (no bind address, no bind port) can never
validate together.  Their unset bind ports survive the defaulting pass (it
requires a bind address) and compare equal as zero, so validation always
fails; and when every per-relay check passes and namespaces are pairwise
distinct, the failure is specifically the duplicate-bind-port error, even
though neither relay binds any port. -/
theorem C10_client_only_dup_bind_port (rs : List Relay) (i j : Nat)
    (ri rj : Relay) (hij : i ≠ j)
    (hi : rs.get? i = some ri) (hj : rs.get? j = some rj)
    (hai : ri.OscBindAddr = "") (hpi : ri.OscBindPort = 0)
    (haj : rj.OscBindAddr = "") (hpj : rj.OscBindPort = 0) :
    (∃ e, readConfigCheck rs = Except.error e) ∧
    ((∀ r ∈ rs, r.MqttHost ≠ "" ∧ r.MqttPort ≠ 0 ∧ r.MqttTopic ≠ "" ∧
        (r.OscBindAddr ≠ "" ∨ r.OscHost ≠ "")) →
      (∀ (a b : Nat) (ra rb : Relay), a ≠ b → rs.get? a = some ra →
        rs.get? b = some rb → ra.MqttTopic ≠ rb.MqttTopic) →
      ∃ k, readConfigCheck rs = Except.error (ConfigError.dupBindPort k)) := by
  have hmain : ∃ e, readConfigCheck rs = Except.error e := by
    apply error_of_not_ok
    intro rs' hok
    have hall := (readConfigCheck_ok rs rs' hok).2
    have hnone := relayError_none _ _ _ (hall i _ (get_map_default rs i ri hi))
    have hd := dupScan_none _ _ _ _ _ hnone.2.2.2 j _ (get_map_default rs j rj hj)
      (by omega)
    apply hd.2
    rw [applyBindPortDefault_OscBindPort_of_noAddr ri hai,
      applyBindPortDefault_OscBindPort_of_noAddr rj haj, hpi, hpj]
  refine ⟨hmain, fun hchecks hdtop => ?_⟩
  obtain ⟨e, he⟩ := hmain
  rcases readConfigCheck_error rs e he with ⟨hnil, _⟩ | ⟨k, r, hk, hrel⟩
  · rw [hnil] at hi
    cases hi
  · rw [List.get?_map] at hk
    cases hg : rs.get? k with
    | none =>
      rw [hg] at hk
      cases hk
    | some r0 =>
      rw [hg] at hk
      cases hk
      have hmem := List.get?_mem hg
      obtain ⟨hh, hp, ht, hep⟩ := hchecks r0 hmem
      rcases relayError_some _ _ _ _ hrel with ⟨hv, _⟩ | ⟨hv, _⟩ | ⟨hv1, hv2, _⟩ | hdup
      · rw [applyBindPortDefault_MqttHost, applyBindPortDefault_MqttPort] at hv
        rcases hv with h | h
        · exact absurd h hh
        · exact absurd h hp
      · rw [applyBindPortDefault_MqttTopic] at hv
        exact absurd hv ht
      · rw [applyBindPortDefault_OscBindAddr] at hv1
        rw [applyBindPortDefault_OscHost] at hv2
        rcases hep with h | h
        · exact absurd hv1 h
        · exact absurd hv2 h
      · obtain ⟨j2, r2, hj2, hne, hcase⟩ := dupScan_some _ _ _ _ _ _ hdup
        rcases hcase with ⟨htop, hetop⟩ | ⟨_, heport⟩
        · rw [List.get?_map] at hj2
          cases hg2 : rs.get? j2 with
          | none =>
            rw [hg2] at hj2
            cases hj2
          | some r2o =>
            rw [hg2] at hj2
            cases hj2
            rw [applyBindPortDefault_MqttTopic, applyBindPortDefault_MqttTopic]
              at htop
            exact absurd htop (hdtop k j2 r0 r2o (by omega) hg hg2)
        · rw [heport] at he
          exact ⟨k, he⟩

/-- First client-only relay of the C10 witness. -/
def relayC10a : Relay :=
  { MqttHost := "h", MqttPort := 1, MqttTopic := "a",
    MqttDisableConfigSend := false, OscHost := "o1", OscPort := 9,
    OscBindAddr := "", OscBindPort := 0,
    OscDisallowArbritaryCommand := false, Commands := [] }

/-- Second client-only relay of the C10 witness: distinct namespace and
peer, same (unset) bind port zero. -/
def relayC10b : Relay :=
  { MqttHost := "h", MqttPort := 1, MqttTopic := "b",
    MqttDisableConfigSend := false, OscHost := "o2", OscPort := 10,
    OscBindAddr := "", OscBindPort := 0,
    OscDisallowArbritaryCommand := false, Commands := [] }

/-- C10 witness: two otherwise-valid client-only relays are rejected with
the duplicate-bind-port error. -/
theorem C10_client_only_dup_bind_port_witness :
    ∃ k, readConfigCheck [relayC10a, relayC10b] =
      Except.error (ConfigError.dupBindPort k) := by
  have h := C10_client_only_dup_bind_port [relayC10a, relayC10b] 0 1
    relayC10a relayC10b (by omega) rfl rfl rfl rfl rfl rfl
  apply h.2
  · decide
  · intro a b ra rb hab ha hb
    cases a with
    | zero =>
      cases b with
      | zero => exact absurd rfl hab
      | succ b2 =>
        cases b2 with
        | zero =>
          rw [List.get?_cons_zero] at ha
          rw [List.get?_cons_succ, List.get?_cons_zero] at hb
          cases ha
          cases hb
          decide
        | succ b3 =>
          rw [List.get?_cons_succ, List.get?_cons_succ] at hb
          cases hb
    | succ a2 =>
      cases a2 with
      | zero =>
        rw [List.get?_cons_succ, List.get?_cons_zero] at ha
        cases ha
        cases b with
        | zero =>
          rw [List.get?_cons_zero] at hb
          cases hb
          decide
        | succ b2 =>
          cases b2 with
          | zero => exact absurd rfl hab
          | succ b3 =>
            rw [List.get?_cons_succ, List.get?_cons_succ] at hb
            cases hb
      | succ a3 =>
        rw [List.get?_cons_succ, List.get?_cons_succ] at ha
        cases ha

/-- An inbound OSC packet as classified by `OscDispatcher.Dispatch`'s type
switch: a single `*osc.Message`, an `*osc.Bundle`, or a packet value of any
other dynamic type. -/
inductive OscPacket where
  | msg (m : OscMessageWire)
  | bundle (b : OscBundleWire)
  | other

/-- An MQTT publish body as produced by `Dispatch`: the JSON encoding of an
argument list (`json.Marshal(message.Arguments)`) or of a portable bundle
(`json.Marshal(makeBundle b)`).  On the scalar/struct values modelled here
`json.Marshal` cannot fail, so the encode-error branch is unreachable. -/
inductive PubPayload where
  | args (l : List OscArg)
  | bundle (b : OscBundle)

/-- One observable effect of `Dispatch`: a broker publish (with its retain
flag) or an error-level log line. -/
inductive DispatchEvent where
  | publish (topic : String) (retained : Bool) (payload : PubPayload)
  | errorLogged (msg : String)

/-- The error text logged for an unrecognized packet kind. -/
def unknownPacketMsg : String := "Unknown OSC packet received."

/-- `OscDispatcher.Dispatch` (lines 157–192): nil packets are ignored; a
message publishes its JSON-encoded argument list, retained, to
`<namespace>/cmd` with the message address appended; a bundle is converted
by `makeBundle` and published, retained, to `<namespace>/bundle`; any other
packet kind logs an error and publishes nothing. -/
def Dispatch (r : Relay) (packet : Option OscPacket) : List DispatchEvent :=
  match packet with
  | none => []
  | some (OscPacket.msg m) =>
    [DispatchEvent.publish (r.MqttTopic ++ "/cmd" ++ m.address) true
      (PubPayload.args m.arguments)]
  | some (OscPacket.bundle b) =>
    [DispatchEvent.publish (r.MqttTopic ++ "/bundle") true
      (PubPayload.bundle (makeBundle b))]
  | some OscPacket.other => [DispatchEvent.errorLogged unknownPacketMsg]

/-- C8: inbound control-packet classification.  For every relay: a single
message is published, retained, to `<namespace>/cmd` with the message
address appended and the JSON argument list as body; a bundle is converted
recursively by the codec (`makeBundle`) and published, retained, to
`<namespace>/bundle`; any other packet kind yields only a logged error and
no publish. -/
theorem C8_inbound_packet_classification (r : Relay) (m : OscMessageWire)
    (b : OscBundleWire) :
    Dispatch r (some (OscPacket.msg m)) =
      [DispatchEvent.publish (r.MqttTopic ++ "/cmd" ++ m.address) true
        (PubPayload.args m.arguments)] ∧
    Dispatch r (some (OscPacket.bundle b)) =
      [DispatchEvent.publish (r.MqttTopic ++ "/bundle") true
        (PubPayload.bundle (makeBundle b))] ∧
    Dispatch r (some OscPacket.other) =
      [DispatchEvent.errorLogged unknownPacketMsg] :=
  ⟨rfl, rfl, rfl⟩

/-- A network-level socket operation performed by `Relay.OscSend`, with UDP
socket handles modelled as numeric identifiers. -/
inductive NetOp where
  | sendTo (conn : Nat)
  | dialEphemeral (conn : Nat)
  | write (conn : Nat)
  | close (conn : Nat)
deriving DecidableEq, Repr

/-- Per-relay socket state established by `Relay.Start`: `serverConn` is
the bound packet connection (`OscServerConn`, modelled as handle 0) and
`receiveConn` the connection the receive loop (`OscServer.Serve`) reads
from.  `Start` creates the server, its connection, and the receive loop
exactly when `OscBindAddr` and `OscBindPort` are both set, and hands the
very same connection to `Serve`. -/
structure OscRuntime where
  serverConn : Option Nat
  receiveConn : Option Nat
deriving DecidableEq, Repr

/-- The socket wiring performed by `Relay.Start` (lines 426–449). -/
def startRuntime (r : Relay) : OscRuntime :=
  if r.OscBindAddr ≠ "" ∧ r.OscBindPort ≠ 0 then
    { serverConn := some 0, receiveConn := some 0 }
  else { serverConn := none, receiveConn := none }

/-- The socket operations of one `Relay.OscSend` call on a non-nil packet,
after address resolution and marshalling succeed (lines 228–243): with a
server present, a single `WriteTo` on the shared server connection;
otherwise `net.DialUDP` with an unused source port (a fresh handle, 1),
one write, and an immediate close (`defer conn.Close()`). -/
def oscSendOps (st : OscRuntime) : List NetOp :=
  match st.serverConn with
  | some c => [NetOp.sendTo c]
  | none => [NetOp.dialEphemeral 1, NetOp.write 1, NetOp.close 1]

/-- C7: in server-present (bidirectional) mode every outbound send is one
datagram written through the single bound socket, and that socket is the
same handle the receive loop reads from; without a server, each outbound
send dials a fresh ephemeral connection, writes, and closes it immediately,
and no receive loop exists (no inbound packet is ever received). -/
theorem C7_bidirectional_socket_invariant (r : Relay) :
    (r.OscBindAddr ≠ "" ∧ r.OscBindPort ≠ 0 →
      ∃ c, oscSendOps (startRuntime r) = [NetOp.sendTo c] ∧
        (startRuntime r).receiveConn = some c) ∧
    (¬(r.OscBindAddr ≠ "" ∧ r.OscBindPort ≠ 0) →
      oscSendOps (startRuntime r) =
          [NetOp.dialEphemeral 1, NetOp.write 1, NetOp.close 1] ∧
        (startRuntime r).receiveConn = none) := by
  constructor
  · intro h
    rw [startRuntime, if_pos h]
    exact ⟨0, rfl, rfl⟩
  · intro h
    rw [startRuntime, if_neg h]
    exact ⟨rfl, rfl⟩

/-- A bidirectional relay for the C7 witness. -/
def relayC7s : Relay :=
  { MqttHost := "h", MqttPort := 1, MqttTopic := "a",
    MqttDisableConfigSend := false, OscHost := "o", OscPort := 9,
    OscBindAddr := "10.0.0.1", OscBindPort := 9,
    OscDisallowArbritaryCommand := false, Commands := [] }

/-- A client-only relay for the C7 witness. -/
def relayC7c : Relay :=
  { MqttHost := "h", MqttPort := 1, MqttTopic := "b",
    MqttDisableConfigSend := false, OscHost := "o", OscPort := 9,
    OscBindAddr := "", OscBindPort := 0,
    OscDisallowArbritaryCommand := false, Commands := [] }

/-- C7 witness: the invariant applied to one bidirectional and one
client-only relay. -/
theorem C7_bidirectional_socket_invariant_witness :
    (∃ c, oscSendOps (startRuntime relayC7s) = [NetOp.sendTo c] ∧
      (startRuntime relayC7s).receiveConn = some c) ∧
    oscSendOps (startRuntime relayC7c) =
        [NetOp.dialEphemeral 1, NetOp.write 1, NetOp.close 1] ∧
      (startRuntime relayC7c).receiveConn = none :=
  ⟨(C7_bidirectional_socket_invariant relayC7s).1 (by decide),
    (C7_bidirectional_socket_invariant relayC7c).2 (by decide)⟩
